import Mathlib

set_option maxRecDepth 8000

/-!
Shallow embedding of the L-shaped decomposition driver of the `SES_opt`
repository (`milestones/Milestone_2/2_src/L_shape_method.py`) together with
its helper contract (`milestones/Milestone_3/2_src/modeling_helper/
utilities.py`).

Modelling conventions:
* real numbers are modelled by `ℚ` (the scripts use exact decimal
  constants; solver tolerances are out of scope);
* the result dictionaries produced by `get_results` are modelled as total
  functions `ℕ → ℚ`, and — where the presence or absence of a key matters —
  as partial maps `ℕ → Option ℚ` with `none` standing for a `KeyError`;
* the external MIP solver (`gurobi`) is modelled as an oracle that returns
  a candidate solution; exact optimality of the returned solution is an
  explicit hypothesis wherever a property needs it;
* `np.random.multivariate_normal` is external floating-point randomness;
  `get_monte_carlo_samples` is embedded by the distribution parameters it
  passes to the sampler.
-/

namespace SESopt

/-- `get_loads` from `modeling_helper/utilities.py`: the hard-coded load
vector.  Its docstring announces "the 24 load values of the problem", but
the returned list has 25 entries: a leading initialization value `0`
followed by the 24 hourly loads. -/
def get_loads : List ℚ :=
  [0,8,8,10,10,10,16,22,24,26,32,30,28,22,18,16,16,20,24,28,34,38,30,22,12]

/-- `LOADS = helper.get_loads()` in `L_shape_method.py`. -/
def LOADS : List ℚ := get_loads

/-- `HOURS = list(range(0, len(LOADS)))` in `L_shape_method.py`. -/
def HOURS : List ℕ := List.range LOADS.length

/-- fixed generator costs `c1 = 2.12*10**-5` ($/h). -/
def c1 : ℚ := 212 / 10000000

/-- linear generator costs `c2 = 0.128` ($/kWh). -/
def c2 : ℚ := 128 / 1000

/-- maximum generator capacity `pmax = 12`. -/
def pmax : ℚ := 12

/-- electricity price of the forward contract `l1 = 0.25` ($/kWh). -/
def l1 : ℚ := 25 / 100

/-- `sensitivity_analysis = False` in the model options of
`L_shape_method.py`. -/
def sensitivity_analysis : Bool := false

/-- the list `l2s` of real-time prices swept by the driver; with
`sensitivity_analysis = False` it is the singleton `[0.3]`. -/
def l2s : List ℚ :=
  if sensitivity_analysis then
    [15/100, 20/100, 25/100, 30/100, 35/100]
  else
    [3/10]

/-- convergence tolerance `epsilon = 0.0001` of `L_shape_method.py`. -/
def epsilon : ℚ := 1 / 10000

/-- `sample_size = 10000` in the model options of `L_shape_method.py`. -/
def sample_size : ℕ := 10000

/-- `seed = 12` in the model options of `L_shape_method.py`. -/
def seed : ℕ := 12

/-- one Monte-Carlo scenario: a load vector (one row of `SAMPLES`). -/
abbrev Scenario := List ℚ

/-- the dictionary `helper.get_results(master)`: per-hour values of the
master variables `u`, `p1`, `alpha`, modelled as total functions. -/
structure MasterSol where
  u : ℕ → ℚ
  p1 : ℕ → ℚ
  alpha : ℕ → ℚ

/-- the dictionary `helper.get_results(sub, dual=True)` for one scenario:
per-hour values of the sub-problem variables `u`, `p1`, `pg`, `p2` and of
the dual prices of the two pinning constraints `dual_con1`, `dual_con2`. -/
structure SubSol where
  u : ℕ → ℚ
  p1 : ℕ → ℚ
  pg : ℕ → ℚ
  p2 : ℕ → ℚ
  dual_con1 : ℕ → ℚ
  dual_con2 : ℕ → ℚ

/-- the helper `objective(u, p1, pg, p2)` of `L_shape_method.py`:
`sum(c1*u[h] + l1*p1[h] + c2*pg[h] + l2*p2[h] for h in HOURS)`.
`l2` is the real-time price currently processed by the driver loop (a
global read by the Python closure, hence an explicit parameter here). -/
def objective (l2 : ℚ) (u p1 pg p2 : ℕ → ℚ) : ℚ :=
  (HOURS.map (fun h => c1 * u h + l1 * p1 h + c2 * pg h + l2 * p2 h)).sum

/-- the helper `master_prob(u, p1, alpha)` of `L_shape_method.py`:
`sum(c1*u[h] + l1*p1[h] + alpha[h] for h in HOURS)`. -/
def master_prob (u p1 alpha : ℕ → ℚ) : ℚ :=
  (HOURS.map (fun h => c1 * u h + l1 * p1 h + alpha h)).sum

/-- `helper.convergence_check` from `modeling_helper/utilities.py`:
accumulates `objective` over all sub-problem results, divides by
`len(samples)`, evaluates `master_prob` on the master results, and returns
`(not upper_bound - lower_bound > epsilon, upper_bound, lower_bound)`. -/
def convergence_check
    (objective : (ℕ → ℚ) → (ℕ → ℚ) → (ℕ → ℚ) → (ℕ → ℚ) → ℚ)
    (master_prob : (ℕ → ℚ) → (ℕ → ℚ) → (ℕ → ℚ) → ℚ)
    (results_master : MasterSol) (results_sub : ℕ → SubSol)
    (samples : List Scenario) (epsilon : ℚ) : Bool × ℚ × ℚ :=
  let acc :=
    (List.range samples.length).foldl
      (fun acc i =>
        acc + objective (results_sub i).u (results_sub i).p1
          (results_sub i).pg (results_sub i).p2) 0
  let upper_bound := acc / (samples.length : ℚ)
  let lower_bound :=
    master_prob results_master.u results_master.p1 results_master.alpha
  (!decide (upper_bound - lower_bound > epsilon), upper_bound, lower_bound)

/-- a per-hour result dictionary as returned by `get_results` on the
master or sub model: both models index their variables by
`pyo.RangeSet(0, 23)`, so the dictionary has exactly the keys `0..23`;
looking up any other key raises `KeyError`, modelled by `none`. -/
def results_dict (f : ℕ → ℚ) : ℕ → Option ℚ :=
  fun h => if h < 24 then some (f h) else none

/-- `sum(c1*u[h] + l1*p1[h] + c2*pg[h] + l2*p2[h] for h in hs)` — the body
of the helper `objective` — with the Python dictionary-lookup semantics
made explicit: a missing key at any visited hour aborts the evaluation
(`KeyError`, modelled by `none`). -/
def objective_lookup (l2 : ℚ) (u p1 pg p2 : ℕ → Option ℚ) :
    List ℕ → Option ℚ
  | [] => some 0
  | h :: t =>
    match u h, p1 h, pg h, p2 h, objective_lookup l2 u p1 pg p2 t with
    | some uv, some pv, some gv, some qv, some rest =>
        some (c1 * uv + l1 * pv + c2 * gv + l2 * qv + rest)
    | _, _, _, _, _ => none

/-- `sum(c1*u[h] + l1*p1[h] + alpha[h] for h in hs)` — the body of the
helper `master_prob` — with explicit dictionary-lookup semantics. -/
def master_prob_lookup (u p1 alpha : ℕ → Option ℚ) : List ℕ → Option ℚ
  | [] => some 0
  | h :: t =>
    match u h, p1 h, alpha h, master_prob_lookup u p1 alpha t with
    | some uv, some pv, some av, some rest =>
        some (c1 * uv + l1 * pv + av + rest)
    | _, _, _, _ => none

/-- the helper `objective` evaluated on result dictionaries over `HOURS`. -/
def objective_checked (l2 : ℚ) (u p1 pg p2 : ℕ → Option ℚ) : Option ℚ :=
  objective_lookup l2 u p1 pg p2 HOURS

/-- the helper `master_prob` evaluated on result dictionaries over
`HOURS`. -/
def master_prob_checked (u p1 alpha : ℕ → Option ℚ) : Option ℚ :=
  master_prob_lookup u p1 alpha HOURS

/-- the distribution parameters handed to
`np.random.multivariate_normal` (the draw itself is external
floating-point randomness and is not re-modelled). -/
structure MultivariateNormalSpec where
  mean : List ℚ
  cov : ℕ → ℕ → ℚ
  size : ℕ
  seed : ℕ

/-- `cov_pl = np.diagflat(np.array(values)*1/3)` inside
`get_monte_carlo_samples`: the diagonal covariance matrix whose `i`-th
diagonal entry is one third of the `i`-th value. -/
def cov_pl (values : List ℚ) : ℕ → ℕ → ℚ :=
  fun i j => if i = j then values.getD i 0 * (1/3) else 0

/-- `get_monte_carlo_samples(values, samples, seed)` from
`modeling_helper/utilities.py`: seeds numpy with `seed` and performs one
call `np.random.multivariate_normal(values, cov_pl, size=samples)`,
embedded by the parameters of that call. -/
def get_monte_carlo_samples (values : List ℚ) (samples : ℕ) (seed : ℕ) :
    MultivariateNormalSpec :=
  ⟨values, cov_pl values, samples, seed⟩

/-- `SAMPLES = helper.get_monte_carlo_samples(LOADS, samples=sample_size,
seed=seed)` in `L_shape_method.py` (generated once per run). -/
def SAMPLES : MultivariateNormalSpec :=
  get_monte_carlo_samples LOADS sample_size seed

/-- the hour set `pyo.RangeSet(0, 23)` shared by the master and sub
models. -/
def H24 : Finset ℕ := Finset.range 24

/-- the data captured by the closure `cut` when
`setattr(master, f'cut_{iteration}', pyo.Constraint(master.H, rule=cut))`
attaches a cut to the master model: the current iteration's sub-problem
results for every scenario, and the master results those sub-problems were
pinned to. -/
structure CutBlock where
  results_sub : ℕ → SubSol
  results_master : MasterSol

/-- the left-hand expression of the constraint rule `cut` in
`L_shape_method.py`: the sum over `enumerate(SAMPLES)` of
`c2*pg_i[H] + l2*p2_i[H] + dual1_i[H]*(u[H] - u*[H]) +
dual2_i[H]*(p1[H] - p1*[H])`, divided by `sample_size` (the script draws
exactly `sample_size` scenarios, so `len(SAMPLES) = sample_size`). -/
def cutExpr (samples : List Scenario) (sample_size : ℕ) (l2 : ℚ)
    (cb : CutBlock) (x : MasterSol) (H : ℕ) : ℚ :=
  ((List.range samples.length).map (fun i =>
    c2 * (cb.results_sub i).pg H + l2 * (cb.results_sub i).p2 H
      + (cb.results_sub i).dual_con1 H * (x.u H - cb.results_master.u H)
      + (cb.results_sub i).dual_con2 H *
          (x.p1 H - cb.results_master.p1 H))).sum
    / (sample_size : ℚ)

/-- the constraint rule `cut` itself: the averaged expression is
`<= master.alpha[H]`. -/
def cut (samples : List Scenario) (sample_size : ℕ) (l2 : ℚ)
    (cb : CutBlock) (x : MasterSol) (H : ℕ) : Prop :=
  cutExpr samples sample_size l2 cb x H ≤ x.alpha H

/-- Modelled from the spec's wording of the cut (section 4.1 step 5), for
comparison with the source rule `cut`:
`alpha[h] ≥ (1/sample_size) * Σ_i [c2*pg_i[h] + l2*p2_i[h] +
dual1_i[h]*(u[h]−u*_i[h]) + dual2_i[h]*(p1[h]−p1*_i[h])]`. -/
def cut_spec (samples : List Scenario) (sample_size : ℕ) (l2 : ℚ)
    (cb : CutBlock) (x : MasterSol) (H : ℕ) : Prop :=
  x.alpha H ≥ (1 / (sample_size : ℚ)) *
    ∑ i in Finset.range samples.length,
      (c2 * (cb.results_sub i).pg H + l2 * (cb.results_sub i).p2 H
        + (cb.results_sub i).dual_con1 H * (x.u H - cb.results_master.u H)
        + (cb.results_sub i).dual_con2 H *
            (x.p1 H - cb.results_master.p1 H))

/-- the master objective `master_obj` of the pyomo model:
`sum(c1*master.u[h] + l1*master.p1[h] + master.alpha[h] for h in
master.H)`. -/
def master_obj (x : MasterSol) : ℚ :=
  ∑ h in H24, (c1 * x.u h + l1 * x.p1 h + x.alpha h)

/-- feasibility for the master model once the given cut blocks have been
attached: `u` binary, `p1` non-negative (variable domains), `alphacon1`
(`alpha[h] >= -500`), and every attached cut constraint at every model
hour. -/
def masterFeasible (samples : List Scenario) (sample_size : ℕ) (l2 : ℚ)
    (cuts : List CutBlock) (x : MasterSol) : Prop :=
  (∀ h ∈ H24, (x.u h = 0 ∨ x.u h = 1) ∧ 0 ≤ x.p1 h ∧ -500 ≤ x.alpha h) ∧
  ∀ cb ∈ cuts, ∀ h ∈ H24, cut samples sample_size l2 cb x h

/-- the solver contract for a master solve: the returned point is feasible
for the current cut set and minimizes `master_obj` over all feasible
points.  (The external solver is otherwise a black box.) -/
def masterOptimal (samples : List Scenario) (sample_size : ℕ) (l2 : ℚ)
    (cuts : List CutBlock) (x : MasterSol) : Prop :=
  masterFeasible samples sample_size l2 cuts x ∧
  ∀ y, masterFeasible samples sample_size l2 cuts y →
    master_obj x ≤ master_obj y

/-- `get_results` on the master model yields entries only for the model
hours `0..23`; reading that dictionary as a total function, all other
hours carry no contribution (zero). -/
def vanishesAbove24 (x : MasterSol) : Prop :=
  ∀ h, 24 ≤ h → x.u h = 0 ∧ x.p1 h = 0 ∧ x.alpha h = 0

/-- the external solver boundary of the driver: `solve_model(opt, master)`
for the master model carrying the attached cut blocks, and
`solve_model(opt, sub)` for scenario `i`'s sub-problem pinned to the given
master results. -/
structure Oracles where
  masterSolve : List CutBlock → MasterSol
  subSolve : MasterSol → ℕ → SubSol

/-- the driver's per-iteration state: iteration counter, attached cut
blocks, current master and sub-problem results, and the outcome of the
latest convergence check. -/
structure LoopState where
  iteration : ℕ
  cuts : List CutBlock
  results_master : MasterSol
  results_sub : ℕ → SubSol
  converged : Bool
  upper_bound : ℚ
  lower_bound : ℚ

/-- one call of `helper.convergence_check(objective, master_prob,
results_master, results_sub, samples, epsilon)` as issued by the driver. -/
def checkState (l2 ε : ℚ) (samples : List Scenario) (m : MasterSol)
    (rs : ℕ → SubSol) : Bool × ℚ × ℚ :=
  convergence_check (objective l2) master_prob m rs samples ε

/-- the initialization phase of the driver: solve the cut-free master,
solve every scenario's sub-problem pinned to it, run the convergence
check. -/
def initState (O : Oracles) (l2 ε : ℚ) (samples : List Scenario) :
    LoopState :=
  let m := O.masterSolve []
  let rs := fun i => O.subSolve m i
  let c := checkState l2 ε samples m rs
  ⟨0, [], m, rs, c.1, c.2.1, c.2.2⟩

/-- the body of `while not converged`: attach one new cut block built from
the current results, re-solve the master, re-solve every scenario's
sub-problem against the new master results, re-run the convergence check.
Once the state is converged the body never runs again. -/
def loopBody (O : Oracles) (l2 ε : ℚ) (samples : List Scenario)
    (st : LoopState) : LoopState :=
  if st.converged then st
  else
    let newCuts := st.cuts ++ [⟨st.results_sub, st.results_master⟩]
    let m := O.masterSolve newCuts
    let rs := fun i => O.subSolve m i
    let c := checkState l2 ε samples m rs
    ⟨st.iteration + 1, newCuts, m, rs, c.1, c.2.1, c.2.2⟩

/-- the state of the driver after `n` executions of the loop body. -/
def loopIter (O : Oracles) (l2 ε : ℚ) (samples : List Scenario) :
    ℕ → LoopState
  | 0 => initState O l2 ε samples
  | n + 1 => loopBody O l2 ε samples (loopIter O l2 ε samples n)

/-- fuel-indexed unfolding of `while not converged`: `conv k` is the
convergence flag of iteration `k`; the loop exits at the first converged
iteration, and `none` means the fuel ran out without the loop exiting. -/
def runLoop (conv : ℕ → Bool) : ℕ → ℕ → Option ℕ
  | 0, _ => none
  | fuel + 1, k => if conv k then some k else runLoop conv fuel (k + 1)

/-- failure of one `solver.solve(model)` call (infeasibility or solver
error): pyomo raises an exception, and `L_shape_method.py` contains no
try/except, so the exception propagates. -/
inductive SolverFailure where
  | failed : SolverFailure

/-- the per-scenario solve loop `for i, sample in enumerate(SAMPLES)` with
the solver boundary made fallible: scenarios are solved strictly in order,
each exactly once, and the first failure propagates, aborting the loop
(no retry, no partial-failure handling). -/
def solve_scenarios (subSolve : ℕ → Except SolverFailure SubSol) :
    ℕ → Except SolverFailure (List SubSol)
  | 0 => Except.ok []
  | n + 1 =>
    match solve_scenarios subSolve n with
    | Except.error e => Except.error e
    | Except.ok pre =>
      match subSolve n with
      | Except.error e => Except.error e
      | Except.ok s => Except.ok (pre ++ [s])

/-- one whole iteration of the driver with the solver boundary made
fallible: solve the master, then all scenario sub-problems; any failure
propagates and aborts the iteration. -/
def solve_iteration (masterSolve : Except SolverFailure MasterSol)
    (subSolve : ℕ → Except SolverFailure SubSol) (n : ℕ) :
    Except SolverFailure (MasterSol × List SubSol) :=
  match masterSolve with
  | Except.error e => Except.error e
  | Except.ok m =>
    match solve_scenarios subSolve n with
    | Except.error e => Except.error e
    | Except.ok subs => Except.ok (m, subs)

/-- feasibility of the scenario sub-problem: variable domains
(`pg, p2 >= 0`), `con_load` (`pg + p1 + p2 >= pl[H]`), `con_max`
(`pg <= pmax*u`), and the pinning constraints `dual_con1` (`u = u*`) and
`dual_con2` (`p1 = p1*`) that fix the first-stage variables to the
master's current results. -/
def subFeasible (ustar p1star load : ℕ → ℚ) (y : SubSol) : Prop :=
  ∀ h ∈ H24,
    0 ≤ y.pg h ∧ 0 ≤ y.p2 h ∧ y.pg h ≤ pmax * y.u h ∧
    load h ≤ y.pg h + y.p1 h + y.p2 h ∧ y.u h = ustar h ∧ y.p1 h = p1star h

/-- the sub-problem objective `sub.OBJ`:
`sum(c2*sub.pg[h] + l2*sub.p2[h] for h in sub.H)`. -/
def sub_OBJ (l2 : ℚ) (y : SubSol) : ℚ :=
  ∑ h in H24, (c2 * y.pg h + l2 * y.p2 h)

/-- the solver contract for a sub-problem solve: feasible and minimizing
`sub.OBJ`. -/
def subOptimal (l2 : ℚ) (ustar p1star load : ℕ → ℚ) (y : SubSol) : Prop :=
  subFeasible ustar p1star load y ∧
  ∀ z, subFeasible ustar p1star load z → sub_OBJ l2 y ≤ sub_OBJ l2 z

/-- the all-zero master result dictionary (witness instance). -/
def zeroMaster : MasterSol := ⟨fun _ => 0, fun _ => 0, fun _ => 0⟩

/-- the all-zero sub-problem result dictionary (witness instance). -/
def zeroSub : SubSol :=
  ⟨fun _ => 0, fun _ => 0, fun _ => 0, fun _ => 0, fun _ => 0, fun _ => 0⟩

/-- a one-element scenario set (witness instance). -/
def oneScenario : List Scenario := [[0]]

/-- the optimal cut-free master solution: everything off and `alpha` at
its floor on the model hours (witness instance). -/
def masterFloor : MasterSol :=
  ⟨fun _ => 0, fun _ => 0, fun h => if h < 24 then -500 else 0⟩

/-- a solver oracle answering the cut-free master with `masterFloor`, any
master carrying cuts with `zeroMaster`, and every sub-problem with
`zeroSub` (witness instance). -/
def wOracle : Oracles :=
  ⟨fun cuts => if cuts.length = 0 then masterFloor else zeroMaster,
   fun _ _ => zeroSub⟩

/-- a solver oracle that always answers `masterFloor` and `zeroSub`, so
the bound gap stays at 12000 forever (witness instance). -/
def stuckOracle : Oracles := ⟨fun _ => masterFloor, fun _ _ => zeroSub⟩

/-- a solver oracle that always answers `zeroMaster` and `zeroSub`, so the
bound gap is zero and the very first convergence check succeeds (witness
instance). -/
def zeroOracle : Oracles := ⟨fun _ => zeroMaster, fun _ _ => zeroSub⟩

/-- a fallible sub-problem solver that fails on scenario 1 and succeeds
elsewhere (witness instance). -/
def failAt1 : ℕ → Except SolverFailure SubSol :=
  fun i => if i = 1 then Except.error SolverFailure.failed else Except.ok zeroSub

/-- an optimal sub-problem solution whose demand balance is slack
(counterexample instance): the master pins `u = 0` and `p1 = 100` while
the scenario load is 5 in every hour, so the pinned forward purchase alone
over-covers demand. -/
def slackSub : SubSol :=
  ⟨fun _ => 0, fun _ => 100, fun _ => 0, fun _ => 0, fun _ => 0, fun _ => 0⟩

/-- an optimal sub-problem solution for pinned `u = 1`, `p1 = 0` and load
5: the generator covers the load exactly (witness instance). -/
def tightSub : SubSol :=
  ⟨fun _ => 1, fun _ => 0, fun _ => 5, fun _ => 0, fun _ => 0, fun _ => 0⟩

section Theorems

/-- folding `+ f i` over `List.range n` starting from `init` is `init`
plus the finite sum of `f`. -/
theorem foldl_add_range (f : ℕ → ℚ) :
    ∀ (n : ℕ) (init : ℚ),
      (List.range n).foldl (fun acc i => acc + f i) init
        = init + ∑ i in Finset.range n, f i := by
  intro n
  induction n with
  | zero => intro init; simp
  | succ m ih =>
      intro init
      rw [List.range_succ, List.foldl_append, ih, Finset.sum_range_succ]
      simp [add_assoc]

/-- the sum of `f` mapped over `List.range n` is the finite sum of `f`
over `Finset.range n`. -/
theorem range_map_sum (f : ℕ → ℚ) (n : ℕ) :
    ((List.range n).map f).sum = ∑ h in Finset.range n, f h := by
  induction n with
  | zero => simp
  | succ m ih =>
      rw [List.range_succ, List.map_append, List.sum_append,
        Finset.sum_range_succ, ih]
      simp

/-- the list sum over `HOURS` is the finite sum over `Finset.range 25`. -/
theorem hours_map_sum (f : ℕ → ℚ) :
    (HOURS.map f).sum = ∑ h in Finset.range LOADS.length, f h := by
  simpa [HOURS] using range_map_sum f LOADS.length

/-- Claim C1: for every master solution, every family of sub-problem
solutions, every non-empty scenario set and every epsilon, the boolean
returned by `convergence_check` is `true` exactly when the returned
`upper_bound - lower_bound` is at most `epsilon` (so an equal-to-epsilon
gap and a negative gap both count as converged). -/
theorem convergence_check_converged_iff (l2 ε : ℚ) (results_master : MasterSol)
    (results_sub : ℕ → SubSol) (samples : List Scenario)
    (hne : samples ≠ []) :
    (convergence_check (objective l2) master_prob results_master results_sub
        samples ε).1 = true ↔
      (convergence_check (objective l2) master_prob results_master results_sub
        samples ε).2.1 -
      (convergence_check (objective l2) master_prob results_master results_sub
        samples ε).2.2 ≤ ε := by
  simp [convergence_check, not_lt]

/-- Witness for C1 at a concrete input: the scenario set `[[0]]` is
non-empty and the equivalence holds there. -/
theorem convergence_check_converged_iff_witness :
    oneScenario ≠ [] ∧
      ((convergence_check (objective (3/10)) master_prob zeroMaster
          (fun _ => zeroSub) oneScenario epsilon).1 = true ↔
        (convergence_check (objective (3/10)) master_prob zeroMaster
          (fun _ => zeroSub) oneScenario epsilon).2.1 -
        (convergence_check (objective (3/10)) master_prob zeroMaster
          (fun _ => zeroSub) oneScenario epsilon).2.2 ≤ epsilon) :=
  ⟨by simp [oneScenario],
   convergence_check_converged_iff (3/10) epsilon zeroMaster
     (fun _ => zeroSub) oneScenario (by simp [oneScenario])⟩

/-- Claim C2: on a non-empty scenario set of size `N`, `convergence_check`
returns as `upper_bound` the value `(1/N) *` the sum over scenarios of
`sum over hours of (c1*u_i[h] + l1*p1_i[h] + c2*pg_i[h] + l2*p2_i[h])`
evaluated on scenario `i`'s own sub-problem solution, and as `lower_bound`
the value `sum over hours of (c1*u[h] + l1*p1[h] + alpha[h])` evaluated on
the master solution.  (The function is a pure function of its arguments in
this embedding, matching "deterministic, no side effects".) -/
theorem convergence_check_bounds_formula (l2 ε : ℚ)
    (results_master : MasterSol) (results_sub : ℕ → SubSol)
    (samples : List Scenario) (hne : samples ≠ []) :
    (convergence_check (objective l2) master_prob results_master results_sub
        samples ε).2.1
      = (1 / (samples.length : ℚ)) *
          ∑ i in Finset.range samples.length,
            ∑ h in Finset.range LOADS.length,
              (c1 * (results_sub i).u h + l1 * (results_sub i).p1 h +
                c2 * (results_sub i).pg h + l2 * (results_sub i).p2 h) ∧
    (convergence_check (objective l2) master_prob results_master results_sub
        samples ε).2.2
      = ∑ h in Finset.range LOADS.length,
          (c1 * results_master.u h + l1 * results_master.p1 h +
            results_master.alpha h) := by
  constructor
  · show ((List.range samples.length).foldl
        (fun acc i => acc + objective l2 (results_sub i).u (results_sub i).p1
          (results_sub i).pg (results_sub i).p2) 0) / (samples.length : ℚ) = _
    rw [foldl_add_range, zero_add, div_eq_mul_inv, mul_comm, ← one_div]
    refine congrArg _ (Finset.sum_congr rfl (fun i _ => ?_))
    exact hours_map_sum
      (fun h => c1 * (results_sub i).u h + l1 * (results_sub i).p1 h +
        c2 * (results_sub i).pg h + l2 * (results_sub i).p2 h)
  · show master_prob _ _ _ = _
    simpa [master_prob] using hours_map_sum
      (fun h => c1 * results_master.u h + l1 * results_master.p1 h +
        results_master.alpha h)

/-- Witness for C2 at a concrete input: the scenario set `[[0]]` is
non-empty and the two bound formulas hold there. -/
theorem convergence_check_bounds_formula_witness :
    oneScenario ≠ [] ∧
      ((convergence_check (objective (3/10)) master_prob zeroMaster
          (fun _ => zeroSub) oneScenario epsilon).2.1
        = (1 / (oneScenario.length : ℚ)) *
            ∑ i in Finset.range oneScenario.length,
              ∑ h in Finset.range LOADS.length,
                (c1 * zeroSub.u h + l1 * zeroSub.p1 h +
                  c2 * zeroSub.pg h + (3/10) * zeroSub.p2 h) ∧
      (convergence_check (objective (3/10)) master_prob zeroMaster
          (fun _ => zeroSub) oneScenario epsilon).2.2
        = ∑ h in Finset.range LOADS.length,
            (c1 * zeroMaster.u h + l1 * zeroMaster.p1 h +
              zeroMaster.alpha h)) :=
  ⟨by simp [oneScenario],
   convergence_check_bounds_formula (3/10) epsilon zeroMaster
     (fun _ => zeroSub) oneScenario (by simp [oneScenario])⟩

/-- if hour `24` is among the hours to sum over and the `u` dictionary has
no key `24`, the checked `objective` sum evaluates to `none`. -/
theorem objective_lookup_none (l2 : ℚ) (u p1 pg p2 : ℕ → Option ℚ)
    (hu : u 24 = none) :
    ∀ hs : List ℕ, 24 ∈ hs → objective_lookup l2 u p1 pg p2 hs = none := by
  intro hs
  induction hs with
  | nil => intro h; cases h
  | cons a t ih =>
      intro hmem
      rcases List.mem_cons.mp hmem with rfl | hmem'
      · simp [objective_lookup, hu]
      · cases h1 : u a <;> cases h2 : p1 a <;> cases h3 : pg a <;>
          cases h4 : p2 a <;>
          simp [objective_lookup, h1, h2, h3, h4, ih hmem']

/-- if hour `24` is among the hours to sum over and the `u` dictionary has
no key `24`, the checked `master_prob` sum evaluates to `none`. -/
theorem master_prob_lookup_none (u p1 alpha : ℕ → Option ℚ)
    (hu : u 24 = none) :
    ∀ hs : List ℕ, 24 ∈ hs → master_prob_lookup u p1 alpha hs = none := by
  intro hs
  induction hs with
  | nil => intro h; cases h
  | cons a t ih =>
      intro hmem
      rcases List.mem_cons.mp hmem with rfl | hmem'
      · simp [master_prob_lookup, hu]
      · cases h1 : u a <;> cases h2 : p1 a <;> cases h3 : alpha a <;>
          simp [master_prob_lookup, h1, h2, h3, ih hmem']

/-- Claim C4 (refuted by the code — this evaluates the code at the failing
input): `get_loads` returns 25 values, so `HOURS = range(len(LOADS))`
contains the hour index `24`; the result dictionaries of the master and
sub models are keyed `0..23` (`RangeSet(0, 23)`), so evaluating
`objective` or `master_prob` on them looks up the missing key `24` and
fails (a `KeyError`, modelled by `none`). -/
theorem objective_hits_missing_hour_key :
    24 ∈ HOURS ∧
    (∀ f : ℕ → ℚ, results_dict f 24 = none) ∧
    (∀ (l2 : ℚ) (u p1 pg p2 : ℕ → ℚ),
      objective_checked l2 (results_dict u) (results_dict p1)
        (results_dict pg) (results_dict p2) = none) ∧
    (∀ u p1 alpha : ℕ → ℚ,
      master_prob_checked (results_dict u) (results_dict p1)
        (results_dict alpha) = none) := by
  refine ⟨by decide, fun f => by simp [results_dict],
    fun l2 u p1 pg p2 => ?_, fun u p1 alpha => ?_⟩
  · exact objective_lookup_none l2 _ _ _ _ (by simp [results_dict]) HOURS
      (by decide)
  · exact master_prob_lookup_none _ _ _ (by simp [results_dict]) HOURS
      (by decide)

/-- Counterexample to Claim C9 as stated: the nominal vector handed to the
multivariate-normal sampler has 25 components (the scenarios drawn from it
therefore have 25 components each), not 24. -/
theorem samples_have_25_components :
    SAMPLES.mean.length = 25 ∧ (25 : ℕ) ≠ 24 :=
  ⟨rfl, by decide⟩

/-- Claim C9 as amended: the sample set used by the driver is drawn by a
single call, seeded with 12, asking for `sample_size` rows of a
multivariate normal distribution whose mean is the 25-element nominal load
vector `get_loads()` and whose diagonal covariance has variance equal to
one third of each element's nominal value (off-diagonal entries zero). -/
theorem monte_carlo_parameters :
    SAMPLES.mean = get_loads ∧
    SAMPLES.mean.length = 25 ∧
    (∀ i, i < 25 → SAMPLES.cov i i = SAMPLES.mean.getD i 0 * (1/3)) ∧
    (∀ i j, i ≠ j → SAMPLES.cov i j = 0) ∧
    SAMPLES.size = sample_size ∧
    SAMPLES.seed = 12 := by
  refine ⟨rfl, rfl, fun i _ => ?_, fun i j hij => ?_, rfl, rfl⟩
  · simp [SAMPLES, get_monte_carlo_samples, cov_pl]
  · simp [SAMPLES, get_monte_carlo_samples, cov_pl, hij]

/-- Witness for C9 (amended) at concrete indices: hour 3 has nominal load
10 and sampling variance 10/3; the covariance entry (0, 1) off the
diagonal is 0. -/
theorem monte_carlo_parameters_witness :
    ((3 : ℕ) < 25 ∧ SAMPLES.cov 3 3 = 10 * (1/3)) ∧
    ((0 : ℕ) ≠ 1 ∧ SAMPLES.cov 0 1 = 0) := by
  refine ⟨⟨by decide, ?_⟩, by decide, monte_carlo_parameters.2.2.2.1 0 1
    (by decide)⟩
  rw [monte_carlo_parameters.2.2.1 3 (by decide)]
  rfl

/-- unfolding one loop iteration. -/
theorem loopIter_succ (O : Oracles) (l2 ε : ℚ) (samples : List Scenario)
    (n : ℕ) :
    loopIter O l2 ε samples (n + 1)
      = loopBody O l2 ε samples (loopIter O l2 ε samples n) := rfl

/-- the loop body does not run on a converged state. -/
theorem loopBody_of_converged (O : Oracles) (l2 ε : ℚ)
    (samples : List Scenario) (st : LoopState) (h : st.converged = true) :
    loopBody O l2 ε samples st = st := by
  simp [loopBody, h]

/-- on a non-converged state the loop body appends exactly the cut block
built from the current results. -/
theorem loopBody_cuts (O : Oracles) (l2 ε : ℚ) (samples : List Scenario)
    (st : LoopState) (h : st.converged = false) :
    (loopBody O l2 ε samples st).cuts
      = st.cuts ++ [⟨st.results_sub, st.results_master⟩] := by
  simp [loopBody, h]

/-- on a non-converged state the loop body re-solves the master over the
extended cut set. -/
theorem loopBody_master (O : Oracles) (l2 ε : ℚ) (samples : List Scenario)
    (st : LoopState) (h : st.converged = false) :
    (loopBody O l2 ε samples st).results_master
      = O.masterSolve (st.cuts ++ [⟨st.results_sub, st.results_master⟩]) := by
  simp [loopBody, h]

/-- the recorded lower bound of every iteration is `master_prob` of that
iteration's master results (as computed by `convergence_check`). -/
theorem loopState_lb (O : Oracles) (l2 ε : ℚ) (samples : List Scenario) :
    ∀ n, (loopIter O l2 ε samples n).lower_bound
      = master_prob (loopIter O l2 ε samples n).results_master.u
          (loopIter O l2 ε samples n).results_master.p1
          (loopIter O l2 ε samples n).results_master.alpha := by
  intro n
  induction n with
  | zero => rfl
  | succ m ih =>
      rw [loopIter_succ]
      cases hc : (loopIter O l2 ε samples m).converged with
      | true => rw [loopBody_of_converged O l2 ε samples _ hc]; exact ih
      | false => simp [loopBody, hc, checkState, convergence_check]

/-- the convergence flag of every iteration is the boolean
`not (upper_bound - lower_bound > epsilon)` on that iteration's recorded
bounds. -/
theorem loopState_conv (O : Oracles) (l2 ε : ℚ) (samples : List Scenario) :
    ∀ n, (loopIter O l2 ε samples n).converged
      = !decide ((loopIter O l2 ε samples n).upper_bound
          - (loopIter O l2 ε samples n).lower_bound > ε) := by
  intro n
  induction n with
  | zero => rfl
  | succ m ih =>
      rw [loopIter_succ]
      cases hc : (loopIter O l2 ε samples m).converged with
      | true => rw [loopBody_of_converged O l2 ε samples _ hc]; exact ih
      | false => simp [loopBody, hc, checkState, convergence_check]

/-- on a non-converged state the loop body records the freshly computed
upper bound. -/
theorem loopBody_ub (O : Oracles) (l2 ε : ℚ) (samples : List Scenario)
    (st : LoopState) (h : st.converged = false) :
    (loopBody O l2 ε samples st).upper_bound
      = (checkState l2 ε samples
          (O.masterSolve (st.cuts ++ [⟨st.results_sub, st.results_master⟩]))
          (fun i => O.subSolve
            (O.masterSolve (st.cuts ++ [⟨st.results_sub, st.results_master⟩]))
            i)).2.1 := by
  simp [loopBody, h]

/-- on a non-converged state the loop body records the freshly computed
lower bound. -/
theorem loopBody_lb (O : Oracles) (l2 ε : ℚ) (samples : List Scenario)
    (st : LoopState) (h : st.converged = false) :
    (loopBody O l2 ε samples st).lower_bound
      = (checkState l2 ε samples
          (O.masterSolve (st.cuts ++ [⟨st.results_sub, st.results_master⟩]))
          (fun i => O.subSolve
            (O.masterSolve (st.cuts ++ [⟨st.results_sub, st.results_master⟩]))
            i)).2.2 := by
  simp [loopBody, h]

/-- evaluation: `master_prob` on `masterFloor` is `24 * (-500) = -12000`
(hour 24 contributes nothing). -/
theorem master_prob_masterFloor :
    master_prob masterFloor.u masterFloor.p1 masterFloor.alpha = -12000 := by
  rw [master_prob, hours_map_sum, show LOADS.length = 25 from rfl]
  simp [Finset.sum_range_succ, masterFloor]
  norm_num

/-- evaluation: `master_prob` on the all-zero master results is `0`. -/
theorem master_prob_zeroMaster :
    master_prob zeroMaster.u zeroMaster.p1 zeroMaster.alpha = 0 := by
  rw [master_prob, hours_map_sum]
  simp [zeroMaster]

/-- evaluation: the helper `objective` on the all-zero sub results is
`0`. -/
theorem objective_zeroSub (l2' : ℚ) :
    objective l2' zeroSub.u zeroSub.p1 zeroSub.pg zeroSub.p2 = 0 := by
  rw [objective, hours_map_sum]
  simp [zeroSub]

/-- evaluation of one convergence check over the single witness
scenario. -/
theorem checkState_oneScenario (l2' ε' : ℚ) (m : MasterSol)
    (rs : ℕ → SubSol) :
    checkState l2' ε' oneScenario m rs
      = (!decide (objective l2' (rs 0).u (rs 0).p1 (rs 0).pg (rs 0).p2 / 1
            - master_prob m.u m.p1 m.alpha > ε'),
         objective l2' (rs 0).u (rs 0).p1 (rs 0).pg (rs 0).p2 / 1,
         master_prob m.u m.p1 m.alpha) := by
  simp only [checkState, convergence_check, oneScenario]
  norm_num [List.range_succ]

/-- with `wOracle` the initial state is not converged: the gap is
`0 - (-12000) = 12000 > 1/10000`. -/
theorem wOracle_conv0 :
    (loopIter wOracle (3/10) epsilon oneScenario 0).converged = false := by
  have h : (loopIter wOracle (3/10) epsilon oneScenario 0).converged
      = (checkState (3/10) epsilon oneScenario masterFloor
          (fun _ => zeroSub)).1 := rfl
  rw [h, checkState_oneScenario]
  norm_num [objective_zeroSub, master_prob_masterFloor, epsilon]

/-- with `wOracle` iteration 1 attaches exactly the block built from the
initial results. -/
theorem wOracle_state1_cuts :
    (loopIter wOracle (3/10) epsilon oneScenario 1).cuts
      = [⟨fun _ => zeroSub, masterFloor⟩] := by
  rw [loopIter_succ, loopBody_cuts _ _ _ _ _ wOracle_conv0]
  rfl

/-- with `wOracle` iteration 1 re-solves the master to `zeroMaster`. -/
theorem wOracle_state1_master :
    (loopIter wOracle (3/10) epsilon oneScenario 1).results_master
      = zeroMaster := by
  rw [loopIter_succ, loopBody_master _ _ _ _ _ wOracle_conv0]
  rfl

/-- with `zeroOracle` the very first convergence check succeeds (gap 0). -/
theorem zeroOracle_conv0 :
    (loopIter zeroOracle (3/10) epsilon oneScenario 0).converged = true := by
  have h : (loopIter zeroOracle (3/10) epsilon oneScenario 0).converged
      = (checkState (3/10) epsilon oneScenario zeroMaster
          (fun _ => zeroSub)).1 := rfl
  rw [h, checkState_oneScenario]
  norm_num [objective_zeroSub, master_prob_zeroMaster, epsilon]

/-- with `stuckOracle` every iteration records upper bound `0` and lower
bound `-12000`. -/
theorem stuckOracle_bounds : ∀ k,
    (loopIter stuckOracle (3/10) epsilon oneScenario k).upper_bound = 0 ∧
    (loopIter stuckOracle (3/10) epsilon oneScenario k).lower_bound
      = -12000 := by
  intro k
  induction k with
  | zero =>
      constructor
      · have h : (loopIter stuckOracle (3/10) epsilon oneScenario
            0).upper_bound
            = (checkState (3/10) epsilon oneScenario masterFloor
                (fun _ => zeroSub)).2.1 := rfl
        rw [h, checkState_oneScenario]
        norm_num [objective_zeroSub]
      · have h : (loopIter stuckOracle (3/10) epsilon oneScenario
            0).lower_bound
            = (checkState (3/10) epsilon oneScenario masterFloor
                (fun _ => zeroSub)).2.2 := rfl
        rw [h, checkState_oneScenario, master_prob_masterFloor]
  | succ n ih =>
      cases hc : (loopIter stuckOracle (3/10) epsilon oneScenario
          n).converged with
      | true =>
          rw [loopIter_succ, loopBody_of_converged _ _ _ _ _ hc]
          exact ih
      | false =>
          rw [loopIter_succ]
          constructor
          · rw [loopBody_ub _ _ _ _ _ hc]
            show (checkState (3/10) epsilon oneScenario masterFloor
              (fun _ => zeroSub)).2.1 = 0
            rw [checkState_oneScenario]
            norm_num [objective_zeroSub]
          · rw [loopBody_lb _ _ _ _ _ hc]
            show (checkState (3/10) epsilon oneScenario masterFloor
              (fun _ => zeroSub)).2.2 = -12000
            rw [checkState_oneScenario, master_prob_masterFloor]

/-- with `stuckOracle` the bound gap stays at `12000 > epsilon` forever. -/
theorem stuckOracle_gap : ∀ k,
    (loopIter stuckOracle (3/10) epsilon oneScenario k).upper_bound
      - (loopIter stuckOracle (3/10) epsilon oneScenario k).lower_bound
      > epsilon := by
  intro k
  obtain ⟨h1, h2⟩ := stuckOracle_bounds k
  rw [h1, h2]
  norm_num [epsilon]

/-- Claim C3: at every non-converged iteration the driver attaches to the
master exactly the cut block built from the current iteration's
sub-problem results and the master values they were pinned to, and for
every hour the attached constraint rule `cut` is equivalent to the spec's
`alpha[h] ≥ (1/sample_size) * Σ_i [c2*pg_i[h] + l2*p2_i[h] +
dual1_i[h]*(u[h]−u*_i[h]) + dual2_i[h]*(p1[h]−p1*_i[h])]`. -/
theorem cut_matches_spec (O : Oracles) (l2 ε : ℚ) (samples : List Scenario)
    (sample_size : ℕ) (n : ℕ)
    (hrun : (loopIter O l2 ε samples n).converged = false) :
    (loopIter O l2 ε samples (n + 1)).cuts
      = (loopIter O l2 ε samples n).cuts ++
          [⟨(loopIter O l2 ε samples n).results_sub,
            (loopIter O l2 ε samples n).results_master⟩] ∧
    ∀ (cb : CutBlock) (x : MasterSol) (H : ℕ),
      cut samples sample_size l2 cb x H ↔
        cut_spec samples sample_size l2 cb x H := by
  constructor
  · rw [loopIter_succ]
    exact loopBody_cuts O l2 ε samples _ hrun
  · intro cb x H
    unfold cut cut_spec cutExpr
    rw [ge_iff_le, range_map_sum, div_eq_mul_inv, mul_comm, ← one_div]

/-- Witness for C3 at a concrete run: with the oracle `wOracle` the
initial state is not converged (gap 12000 > 1/10000) and iteration 1
attaches exactly the cut block built from the initial results. -/
theorem cut_matches_spec_witness :
    (loopIter wOracle (3/10) epsilon oneScenario 0).converged = false ∧
    (loopIter wOracle (3/10) epsilon oneScenario 1).cuts
      = (loopIter wOracle (3/10) epsilon oneScenario 0).cuts ++
          [⟨(loopIter wOracle (3/10) epsilon oneScenario 0).results_sub,
            (loopIter wOracle (3/10) epsilon oneScenario 0).results_master⟩] :=
  ⟨wOracle_conv0,
   (cut_matches_spec wOracle (3/10) epsilon oneScenario 1 0 wOracle_conv0).1⟩

/-- Claim C7: the cut set of the master only grows: each non-converged
iteration appends exactly one new cut block (indexed by its iteration, one
constraint per model hour via `cut`), previously attached blocks are never
removed or modified, and after `n` non-converged iterations exactly `n`
blocks are attached. -/
theorem cuts_accumulate (O : Oracles) (l2 ε : ℚ) (samples : List Scenario)
    (n : ℕ) :
    ((loopIter O l2 ε samples n).converged = false →
      (loopIter O l2 ε samples (n + 1)).cuts
        = (loopIter O l2 ε samples n).cuts ++
            [⟨(loopIter O l2 ε samples n).results_sub,
              (loopIter O l2 ε samples n).results_master⟩]) ∧
    (∀ j, j < (loopIter O l2 ε samples n).cuts.length →
      (loopIter O l2 ε samples (n + 1)).cuts.get? j
        = (loopIter O l2 ε samples n).cuts.get? j) ∧
    ((∀ m, m < n → (loopIter O l2 ε samples m).converged = false) →
      (loopIter O l2 ε samples n).cuts.length = n) := by
  refine ⟨?_, ?_, ?_⟩
  · intro h
    rw [loopIter_succ]
    exact loopBody_cuts O l2 ε samples _ h
  · intro j hj
    rw [loopIter_succ]
    cases hc : (loopIter O l2 ε samples n).converged with
    | true => rw [loopBody_of_converged O l2 ε samples _ hc]
    | false =>
        rw [loopBody_cuts O l2 ε samples _ hc]
        exact List.get?_append hj
  · induction n with
    | zero => intro _; rfl
    | succ m ih =>
        intro h
        have hm : (loopIter O l2 ε samples m).converged = false :=
          h m (Nat.lt_succ_self m)
        rw [loopIter_succ, loopBody_cuts O l2 ε samples _ hm,
          List.length_append,
          ih (fun k hk => h k (hk.trans (Nat.lt_succ_self m)))]
        rfl

/-- Witness for C7 at a concrete run: with `wOracle`, iteration 0 is not
converged and after one iteration exactly one cut block is attached. -/
theorem cuts_accumulate_witness :
    (∀ m, m < 1 →
      (loopIter wOracle (3/10) epsilon oneScenario m).converged = false) ∧
    (loopIter wOracle (3/10) epsilon oneScenario 1).cuts.length = 1 := by
  have hm : ∀ m, m < 1 →
      (loopIter wOracle (3/10) epsilon oneScenario m).converged = false := by
    intro m hm
    have h0 : m = 0 := Nat.lt_one_iff.mp hm
    rw [h0]
    exact wOracle_conv0
  exact ⟨hm, (cuts_accumulate wOracle (3/10) epsilon oneScenario 1).2.2 hm⟩

/-- Claim C6: the decomposition loop terminates only when the convergence
check returns `true`, and there is no maximum-iteration guard: if the
bound gap `upper_bound - lower_bound` stays above `epsilon` at every
iteration, then no amount of fuel makes `while not converged` exit. -/
theorem loop_terminates_only_on_convergence (O : Oracles) (l2 ε : ℚ)
    (samples : List Scenario) :
    (∀ fuel k j,
      runLoop (fun m => (loopIter O l2 ε samples m).converged) fuel k
        = some j →
      (loopIter O l2 ε samples j).converged = true) ∧
    ((∀ k, (loopIter O l2 ε samples k).upper_bound
        - (loopIter O l2 ε samples k).lower_bound > ε) →
      ∀ fuel k,
        runLoop (fun m => (loopIter O l2 ε samples m).converged) fuel k
          = none) := by
  constructor
  · intro fuel
    induction fuel with
    | zero => intro k j h; exact absurd h (by simp [runLoop])
    | succ f ih =>
        intro k j h
        cases hc : (loopIter O l2 ε samples k).converged with
        | true =>
            have hkj : k = j := by simpa [runLoop, hc] using h
            rw [← hkj]
            exact hc
        | false =>
            have h' : runLoop (fun m => (loopIter O l2 ε samples m).converged)
                f (k + 1) = some j := by simpa [runLoop, hc] using h
            exact ih (k + 1) j h'
  · intro hgap fuel
    induction fuel with
    | zero => intro k; rfl
    | succ f ih =>
        intro k
        have hc : (loopIter O l2 ε samples k).converged = false := by
          rw [loopState_conv]
          simp [hgap k]
        simp [runLoop, hc, ih (k + 1)]

/-- Witness for C6: with `zeroOracle` the loop exits immediately and that
exit has a converged check; with `stuckOracle` the gap is 12000 forever
and the loop never exits. -/
theorem loop_terminates_only_on_convergence_witness :
    (loopIter zeroOracle (3/10) epsilon oneScenario 0).converged = true ∧
    runLoop
      (fun m => (loopIter stuckOracle (3/10) epsilon oneScenario m).converged)
      3 0 = none := by
  constructor
  · exact (loop_terminates_only_on_convergence zeroOracle (3/10) epsilon
      oneScenario).1 1 0 0 (by simp [runLoop, zeroOracle_conv0])
  · exact (loop_terminates_only_on_convergence stuckOracle (3/10) epsilon
      oneScenario).2 stuckOracle_gap 3 0

/-- membership in the model hour set is being below 24. -/
theorem mem_H24 {h : ℕ} : h ∈ H24 ↔ h < 24 := by
  simp [H24]

/-- feasibility for an extended cut set implies feasibility for the
original cut set (cuts only constrain further). -/
theorem masterFeasible_of_append (samples : List Scenario)
    (sample_size : ℕ) (l2 : ℚ) (cuts tail : List CutBlock) (x : MasterSol)
    (h : masterFeasible samples sample_size l2 (cuts ++ tail) x) :
    masterFeasible samples sample_size l2 cuts x :=
  ⟨h.1, fun cb hcb => h.2 cb (List.mem_append_left tail hcb)⟩

/-- on results that vanish beyond the model hours, the recorded
`master_prob` value coincides with the pyomo master objective. -/
theorem master_prob_eq_master_obj (x : MasterSol)
    (hz : vanishesAbove24 x) :
    master_prob x.u x.p1 x.alpha = master_obj x := by
  rw [master_prob, hours_map_sum, show LOADS.length = 25 from rfl,
    Finset.sum_range_succ]
  obtain ⟨hu, hp, ha⟩ := hz 24 le_rfl
  rw [hu, hp, ha, master_obj, H24]
  simp

/-- `masterFloor` solves the cut-free master exactly. -/
theorem masterFloor_optimal (samples : List Scenario) (sample_size : ℕ)
    (l2 : ℚ) :
    masterOptimal samples sample_size l2 [] masterFloor := by
  constructor
  · constructor
    · intro h hh
      have hlt : h < 24 := mem_H24.mp hh
      refine ⟨Or.inl rfl, le_refl 0, ?_⟩
      simp [masterFloor, hlt]
    · intro cb hcb
      exact absurd hcb (List.not_mem_nil cb)
  · intro y hy
    have hlhs : master_obj masterFloor = ∑ h in H24, (-500 : ℚ) := by
      refine Finset.sum_congr rfl (fun h hh => ?_)
      have hlt : h < 24 := mem_H24.mp hh
      simp [masterFloor, hlt]
    rw [hlhs]
    refine Finset.sum_le_sum (fun h hh => ?_)
    obtain ⟨hu, hp, ha⟩ := hy.1 h hh
    have h1 : 0 ≤ c1 * y.u h := by
      rcases hu with h0 | h1
      · rw [h0, mul_zero]
      · rw [h1, mul_one]; norm_num [c1]
    have h2 : 0 ≤ l1 * y.p1 h := mul_nonneg (by norm_num [l1]) hp
    linarith

/-- the cut built from all-zero sub results has right-hand expression
zero at every hour. -/
theorem cutExpr_zero_block (l2' : ℚ) (x : MasterSol) (h : ℕ) :
    cutExpr oneScenario 1 l2' ⟨fun _ => zeroSub, masterFloor⟩ x h = 0 := by
  simp [cutExpr, zeroSub, masterFloor, oneScenario, List.range_succ]

/-- `zeroMaster` solves the master carrying the all-zero cut block
exactly. -/
theorem zeroMaster_optimal_one_cut (l2' : ℚ) :
    masterOptimal oneScenario 1 l2' [⟨fun _ => zeroSub, masterFloor⟩]
      zeroMaster := by
  constructor
  · constructor
    · intro h hh
      exact ⟨Or.inl rfl, le_refl 0, by norm_num [zeroMaster]⟩
    · intro cb hcb h hh
      have hcb' : cb = ⟨fun _ => zeroSub, masterFloor⟩ := by simpa using hcb
      rw [hcb']
      show cutExpr oneScenario 1 l2' ⟨fun _ => zeroSub, masterFloor⟩
          zeroMaster h ≤ zeroMaster.alpha h
      rw [cutExpr_zero_block]
      norm_num [zeroMaster]
  · intro y hy
    have h0 : master_obj zeroMaster = 0 := by simp [master_obj, zeroMaster]
    rw [h0]
    refine Finset.sum_nonneg (fun h hh => ?_)
    obtain ⟨hu, hp, _⟩ := hy.1 h hh
    have hcy : cutExpr oneScenario 1 l2' ⟨fun _ => zeroSub, masterFloor⟩ y h
        ≤ y.alpha h := hy.2 _ (by simp) h hh
    rw [cutExpr_zero_block] at hcy
    have h1 : 0 ≤ c1 * y.u h := by
      rcases hu with ha | hb
      · rw [ha, mul_zero]
      · rw [hb, mul_one]; norm_num [c1]
    have h2 : 0 ≤ l1 * y.p1 h := mul_nonneg (by norm_num [l1]) hp
    linarith

/-- `masterFloor` carries no values beyond the model hours. -/
theorem masterFloor_vanishes : vanishesAbove24 masterFloor :=
  fun h hh => ⟨rfl, rfl, by simp [masterFloor, Nat.not_lt.mpr hh]⟩

/-- `zeroMaster` carries no values beyond the model hours. -/
theorem zeroMaster_vanishes : vanishesAbove24 zeroMaster :=
  fun _ _ => ⟨rfl, rfl, rfl⟩

/-- Claim C5: across consecutive iterations of a run, the recorded lower
bounds never decrease, provided the solver returns exact optima of the
master problems (the external solver abstracted by its contract) and the
result dictionaries carry values only for the model hours. -/
theorem lower_bounds_monotone (O : Oracles) (l2 ε : ℚ)
    (samples : List Scenario) (sample_size : ℕ) (n : ℕ)
    (h1 : masterOptimal samples sample_size l2
        (loopIter O l2 ε samples n).cuts
        (loopIter O l2 ε samples n).results_master)
    (h2 : masterOptimal samples sample_size l2
        (loopIter O l2 ε samples (n + 1)).cuts
        (loopIter O l2 ε samples (n + 1)).results_master)
    (hz1 : vanishesAbove24 (loopIter O l2 ε samples n).results_master)
    (hz2 : vanishesAbove24 (loopIter O l2 ε samples (n + 1)).results_master) :
    (loopIter O l2 ε samples n).lower_bound
      ≤ (loopIter O l2 ε samples (n + 1)).lower_bound := by
  rw [loopState_lb O l2 ε samples n, loopState_lb O l2 ε samples (n + 1),
    master_prob_eq_master_obj _ hz1, master_prob_eq_master_obj _ hz2]
  cases hc : (loopIter O l2 ε samples n).converged with
  | true =>
      have heq : loopIter O l2 ε samples (n + 1)
          = loopIter O l2 ε samples n := by
        rw [loopIter_succ, loopBody_of_converged _ _ _ _ _ hc]
      rw [heq]
  | false =>
      have hcuts : (loopIter O l2 ε samples (n + 1)).cuts
          = (loopIter O l2 ε samples n).cuts ++
              [⟨(loopIter O l2 ε samples n).results_sub,
                (loopIter O l2 ε samples n).results_master⟩] := by
        rw [loopIter_succ, loopBody_cuts _ _ _ _ _ hc]
      have hfeas : masterFeasible samples sample_size l2
          (loopIter O l2 ε samples n).cuts
          (loopIter O l2 ε samples (n + 1)).results_master := by
        exact masterFeasible_of_append samples sample_size l2 _ _ _
          (hcuts ▸ h2.1)
      exact h1.2 _ hfeas

/-- Witness for C5 at a concrete run with `wOracle`: both iterations'
master results are exactly optimal and vanish beyond the model hours, and
the recorded lower bound rises from -12000 to 0. -/
theorem lower_bounds_monotone_witness :
    masterOptimal oneScenario 1 (3/10)
        (loopIter wOracle (3/10) epsilon oneScenario 0).cuts
        (loopIter wOracle (3/10) epsilon oneScenario 0).results_master ∧
    masterOptimal oneScenario 1 (3/10)
        (loopIter wOracle (3/10) epsilon oneScenario 1).cuts
        (loopIter wOracle (3/10) epsilon oneScenario 1).results_master ∧
    vanishesAbove24
      (loopIter wOracle (3/10) epsilon oneScenario 0).results_master ∧
    vanishesAbove24
      (loopIter wOracle (3/10) epsilon oneScenario 1).results_master ∧
    (loopIter wOracle (3/10) epsilon oneScenario 0).lower_bound
      ≤ (loopIter wOracle (3/10) epsilon oneScenario 1).lower_bound := by
  have h1 : masterOptimal oneScenario 1 (3/10)
      (loopIter wOracle (3/10) epsilon oneScenario 0).cuts
      (loopIter wOracle (3/10) epsilon oneScenario 0).results_master := by
    show masterOptimal oneScenario 1 (3/10) [] masterFloor
    exact masterFloor_optimal oneScenario 1 (3/10)
  have h2 : masterOptimal oneScenario 1 (3/10)
      (loopIter wOracle (3/10) epsilon oneScenario 1).cuts
      (loopIter wOracle (3/10) epsilon oneScenario 1).results_master := by
    rw [wOracle_state1_cuts, wOracle_state1_master]
    exact zeroMaster_optimal_one_cut (3/10)
  have hz1 : vanishesAbove24
      (loopIter wOracle (3/10) epsilon oneScenario 0).results_master := by
    show vanishesAbove24 masterFloor
    exact masterFloor_vanishes
  have hz2 : vanishesAbove24
      (loopIter wOracle (3/10) epsilon oneScenario 1).results_master := by
    rw [wOracle_state1_master]
    exact zeroMaster_vanishes
  exact ⟨h1, h2, hz1, hz2,
    lower_bounds_monotone wOracle (3/10) epsilon oneScenario 1 0 h1 h2
      hz1 hz2⟩

/-- if every scenario below `n` solves, the scenario loop returns all
their solutions. -/
theorem solve_scenarios_ok (subSolve : ℕ → Except SolverFailure SubSol) :
    ∀ n, (∀ j, j < n → ∃ s, subSolve j = Except.ok s) →
      ∃ l, solve_scenarios subSolve n = Except.ok l := by
  intro n
  induction n with
  | zero => intro _; exact ⟨[], rfl⟩
  | succ m ih =>
      intro h
      obtain ⟨l, hl⟩ := ih (fun j hj => h j (hj.trans (Nat.lt_succ_self m)))
      obtain ⟨s, hs⟩ := h m (Nat.lt_succ_self m)
      exact ⟨l ++ [s], by simp [solve_scenarios, hl, hs]⟩

/-- the first failing scenario's error is the result of the scenario
loop. -/
theorem solve_scenarios_error (subSolve : ℕ → Except SolverFailure SubSol)
    (i : ℕ) (e : SolverFailure) (hi : subSolve i = Except.error e)
    (hok : ∀ j, j < i → ∃ s, subSolve j = Except.ok s) :
    ∀ n, i < n → solve_scenarios subSolve n = Except.error e := by
  intro n
  induction n with
  | zero => intro h; exact absurd h (Nat.not_lt_zero i)
  | succ m ih =>
      intro hlt
      rcases Nat.lt_succ_iff_lt_or_eq.mp hlt with h | h
      · simp [solve_scenarios, ih h]
      · subst h
        obtain ⟨l, hl⟩ := solve_scenarios_ok subSolve i hok
        simp [solve_scenarios, hl, hi]

/-- Claim C8: a solver failure is fatal for the current price point: if
the master solve fails, the whole iteration returns that error; if the
master solves but some scenario's sub-problem solve fails (the earlier
ones succeeding), the iteration returns the first failure's error — no
retry, no partial-failure handling. -/
theorem solver_failure_fatal (masterSolve : Except SolverFailure MasterSol)
    (subSolve : ℕ → Except SolverFailure SubSol) (n : ℕ) :
    (∀ e, masterSolve = Except.error e →
      solve_iteration masterSolve subSolve n = Except.error e) ∧
    (∀ m i e, masterSolve = Except.ok m → i < n →
      subSolve i = Except.error e →
      (∀ j, j < i → ∃ s, subSolve j = Except.ok s) →
      solve_iteration masterSolve subSolve n = Except.error e) := by
  constructor
  · intro e he
    simp [solve_iteration, he]
  · intro m i e hm hin hi hok
    simp [solve_iteration, hm,
      solve_scenarios_error subSolve i e hi hok n hin]

/-- Witness for C8 at concrete inputs: a failing master solve aborts the
iteration, and with a successful master, the failure of scenario 1 of 2
(scenario 0 succeeding) aborts the iteration with that error. -/
theorem solver_failure_fatal_witness :
    ((Except.error SolverFailure.failed : Except SolverFailure MasterSol)
        = Except.error SolverFailure.failed ∧
      solve_iteration (Except.error SolverFailure.failed) failAt1 2
        = Except.error SolverFailure.failed) ∧
    (failAt1 1 = Except.error SolverFailure.failed ∧
      solve_iteration (Except.ok zeroMaster) failAt1 2
        = Except.error SolverFailure.failed) := by
  constructor
  · exact ⟨rfl, (solver_failure_fatal (Except.error SolverFailure.failed)
      failAt1 2).1 SolverFailure.failed rfl⟩
  · refine ⟨rfl, (solver_failure_fatal (Except.ok zeroMaster) failAt1 2).2
      zeroMaster 1 SolverFailure.failed rfl (by norm_num) rfl ?_⟩
    intro j hj
    have h0 : j = 0 := Nat.lt_one_iff.mp hj
    rw [h0]
    exact ⟨zeroSub, rfl⟩

/-- Counterexample to Claim C10 as stated: with the master pinning
`u = 0`, `p1 = 100` and a scenario load of 5 every hour, `slackSub` is an
exact optimum of the sub-problem (cost 0, the minimum possible), yet its
demand balance is slack: `pg[0] + p1[0] + p2[0] = 100 ≠ 5`. -/
theorem sub_balance_slack_cex :
    subOptimal (3/10) (fun _ => 0) (fun _ => 100) (fun _ => 5) slackSub ∧
    slackSub.pg 0 + slackSub.p1 0 + slackSub.p2 0 ≠ (5 : ℚ) := by
  refine ⟨⟨?_, ?_⟩, by norm_num [slackSub]⟩
  · intro h hh
    exact ⟨by norm_num [slackSub], by norm_num [slackSub],
      by norm_num [slackSub, pmax], by norm_num [slackSub], rfl, rfl⟩
  · intro z hz
    have h0 : sub_OBJ (3/10) slackSub = 0 := by simp [sub_OBJ, slackSub]
    rw [h0]
    refine Finset.sum_nonneg (fun h hh => ?_)
    obtain ⟨hpg, hp2, _, _, _, _⟩ := hz h hh
    have ha : 0 ≤ c2 * z.pg h := mul_nonneg (by norm_num [c2]) hpg
    have hb : 0 ≤ (3/10 : ℚ) * z.p2 h := mul_nonneg (by norm_num) hp2
    linarith

/-- Claim C10 as amended: for a positive real-time price, any exact
optimum of a scenario's sub-problem satisfies the demand balance with
equality at every hour where the pinned forward purchase does not already
exceed the load (`p1*[h] ≤ load[h]`); where `p1*[h] > load[h]` the
constraint can be slack, as the counterexample shows. -/
theorem sub_balance_tight (l2 : ℚ) (ustar p1star load : ℕ → ℚ) (y : SubSol)
    (hl2 : 0 < l2) (hopt : subOptimal l2 ustar p1star load y)
    (h : ℕ) (hh : h ∈ H24) (hp : p1star h ≤ load h) :
    y.pg h + y.p1 h + y.p2 h = load h := by
  obtain ⟨hfeas, hmin⟩ := hopt
  obtain ⟨hpg, hp2, hcap, hbal, hu, hp1⟩ := hfeas h hh
  by_contra hne
  have hslack : load h < y.pg h + y.p1 h + y.p2 h :=
    lt_of_le_of_ne hbal (fun hq => hne hq.symm)
  have hpos : 0 < y.pg h + y.p2 h := by
    have hple : y.p1 h ≤ load h := hp1 ▸ hp
    linarith
  rcases lt_or_eq_of_le hpg with hpgpos | hpgzero
  · -- the generator produces at `h`: reduce `pg` there
    set s := y.pg h + y.p1 h + y.p2 h - load h with hs_def
    have hs : 0 < s := by rw [hs_def]; linarith
    set δ := min (y.pg h) s with hδ_def
    have hδ : 0 < δ := lt_min hpgpos hs
    have hδ1 : δ ≤ y.pg h := min_le_left _ _
    have hδ2 : δ ≤ s := min_le_right _ _
    have hzfeas : subFeasible ustar p1star load
        ⟨y.u, y.p1, Function.update y.pg h (y.pg h - δ), y.p2,
          y.dual_con1, y.dual_con2⟩ := by
      intro h' hh'
      by_cases hch : h' = h
      · subst hch
        refine ⟨?_, hp2, ?_, ?_, hu, hp1⟩
        · simp only [Function.update_same]; linarith
        · simp only [Function.update_same]; linarith
        · simp only [Function.update_same]
          rw [hs_def] at hδ2
          linarith
      · obtain ⟨a1, a2, a3, a4, a5, a6⟩ := hfeas h' hh'
        refine ⟨?_, a2, ?_, ?_, a5, a6⟩
        · simpa [Function.update_noteq hch] using a1
        · simpa [Function.update_noteq hch] using a3
        · simpa [Function.update_noteq hch] using a4
    have hobj : sub_OBJ l2
        ⟨y.u, y.p1, Function.update y.pg h (y.pg h - δ), y.p2,
          y.dual_con1, y.dual_con2⟩ = sub_OBJ l2 y - c2 * δ := by
      rw [sub_OBJ, sub_OBJ]
      have hsplit : ∀ x ∈ H24,
          c2 * Function.update y.pg h (y.pg h - δ) x + l2 * y.p2 x
            = Function.update (fun t => c2 * y.pg t + l2 * y.p2 t) h
                (c2 * (y.pg h - δ) + l2 * y.p2 h) x := by
        intro x _
        by_cases hx : x = h
        · subst hx; simp [Function.update_same]
        · simp [Function.update_noteq hx]
      rw [Finset.sum_congr rfl hsplit, Finset.sum_update_of_mem hh,
        ← Finset.erase_eq,
        ← Finset.add_sum_erase H24 (fun t => c2 * y.pg t + l2 * y.p2 t) hh]
      ring
    have hlt : sub_OBJ l2
        ⟨y.u, y.p1, Function.update y.pg h (y.pg h - δ), y.p2,
          y.dual_con1, y.dual_con2⟩ < sub_OBJ l2 y := by
      rw [hobj]
      have : 0 < c2 * δ := mul_pos (by norm_num [c2]) hδ
      linarith
    exact absurd (hmin _ hzfeas) (not_le.mpr hlt)
  · -- the generator is idle at `h`, so the real-time purchase is positive:
    -- reduce `p2` there
    have hpg0 : y.pg h = 0 := hpgzero.symm
    have hp2pos : 0 < y.p2 h := by
      rw [hpg0] at hpos
      simpa using hpos
    set s := y.pg h + y.p1 h + y.p2 h - load h with hs_def
    have hs : 0 < s := by rw [hs_def]; linarith
    set δ := min (y.p2 h) s with hδ_def
    have hδ : 0 < δ := lt_min hp2pos hs
    have hδ1 : δ ≤ y.p2 h := min_le_left _ _
    have hδ2 : δ ≤ s := min_le_right _ _
    have hzfeas : subFeasible ustar p1star load
        ⟨y.u, y.p1, y.pg, Function.update y.p2 h (y.p2 h - δ),
          y.dual_con1, y.dual_con2⟩ := by
      intro h' hh'
      by_cases hch : h' = h
      · subst hch
        refine ⟨hpg, ?_, hcap, ?_, hu, hp1⟩
        · simp only [Function.update_same]; linarith
        · simp only [Function.update_same]
          rw [hs_def] at hδ2
          linarith
      · obtain ⟨a1, a2, a3, a4, a5, a6⟩ := hfeas h' hh'
        refine ⟨a1, ?_, a3, ?_, a5, a6⟩
        · simpa [Function.update_noteq hch] using a2
        · simpa [Function.update_noteq hch] using a4
    have hobj : sub_OBJ l2
        ⟨y.u, y.p1, y.pg, Function.update y.p2 h (y.p2 h - δ),
          y.dual_con1, y.dual_con2⟩ = sub_OBJ l2 y - l2 * δ := by
      rw [sub_OBJ, sub_OBJ]
      have hsplit : ∀ x ∈ H24,
          c2 * y.pg x + l2 * Function.update y.p2 h (y.p2 h - δ) x
            = Function.update (fun t => c2 * y.pg t + l2 * y.p2 t) h
                (c2 * y.pg h + l2 * (y.p2 h - δ)) x := by
        intro x _
        by_cases hx : x = h
        · subst hx; simp [Function.update_same]
        · simp [Function.update_noteq hx]
      rw [Finset.sum_congr rfl hsplit, Finset.sum_update_of_mem hh,
        ← Finset.erase_eq,
        ← Finset.add_sum_erase H24 (fun t => c2 * y.pg t + l2 * y.p2 t) hh]
      ring
    have hlt : sub_OBJ l2
        ⟨y.u, y.p1, y.pg, Function.update y.p2 h (y.p2 h - δ),
          y.dual_con1, y.dual_con2⟩ < sub_OBJ l2 y := by
      rw [hobj]
      have : 0 < l2 * δ := mul_pos hl2 hδ
      linarith
    exact absurd (hmin _ hzfeas) (not_le.mpr hlt)

/-- `tightSub` solves the sub-problem pinned to `u = 1`, `p1 = 0` with
load 5 exactly. -/
theorem tightSub_optimal :
    subOptimal (3/10) (fun _ => 1) (fun _ => 0) (fun _ => 5) tightSub := by
  constructor
  · intro h hh
    exact ⟨by norm_num [tightSub], by norm_num [tightSub],
      by norm_num [tightSub, pmax], by norm_num [tightSub], rfl, rfl⟩
  · intro z hz
    have hx : sub_OBJ (3/10) tightSub = ∑ h in H24, c2 * 5 := by
      refine Finset.sum_congr rfl (fun h hh => ?_)
      norm_num [tightSub]
    rw [hx]
    refine Finset.sum_le_sum (fun h hh => ?_)
    obtain ⟨hpg, hp2, hcap, hbal, hu, hp1⟩ := hz h hh
    have h5 : (5 : ℚ) ≤ z.pg h + z.p2 h := by
      rw [hp1] at hbal
      simpa using hbal
    have ha : c2 * 5 ≤ c2 * (z.pg h + z.p2 h) :=
      mul_le_mul_of_nonneg_left h5 (by norm_num [c2])
    have hb : c2 * z.p2 h ≤ (3/10) * z.p2 h :=
      mul_le_mul_of_nonneg_right (by norm_num [c2]) hp2
    rw [mul_add] at ha
    linarith

/-- Witness for C10 (amended) at a concrete instance: positive price,
`tightSub` exactly optimal, hour 0 a model hour with `p1*[0] = 0 ≤ 5 =
load[0]`, and the balance holds with equality there. -/
theorem sub_balance_tight_witness :
    (0 : ℚ) < 3/10 ∧
    subOptimal (3/10) (fun _ => 1) (fun _ => 0) (fun _ => 5) tightSub ∧
    0 ∈ H24 ∧
    (0 : ℚ) ≤ 5 ∧
    tightSub.pg 0 + tightSub.p1 0 + tightSub.p2 0 = 5 :=
  ⟨by norm_num, tightSub_optimal, mem_H24.mpr (by norm_num), by norm_num,
   sub_balance_tight (3/10) (fun _ => 1) (fun _ => 0) (fun _ => 5) tightSub
     (by norm_num) tightSub_optimal 0 (mem_H24.mpr (by norm_num))
     (by norm_num)⟩

end Theorems

end SESopt
